import Mathlib

/-!
# Verification of the docker-diff-scanner layer-graph engine

Shallow embedding of the layer-registry / layer-chain / orphan-detection
code of the `docker-diff-scanner` repository, together with theorems about
the claims of its specification.

The repository contains two generations of the tool.  The newer one
(`ContainerLayer`, `NewContainerLayer`, `Container.Init`,
`GetAllContainers`) builds a deduplicating registry of layer nodes; the
older one (`filesystem.go`) stores a flat parent list per container and
performs the orphan scan in `main`.  Both are embedded below.

Modelling conventions:
* Go strings are Lean `String`s (a `List Char` under the hood).
* The filesystem and the external collaborators (`docker inspect`,
  `du -sb`) are oracles packaged in a `World`: a file read yields
  `Option String` (`none` means the file is absent or unreadable, which is
  exactly when `ioutil.ReadFile` fails and when `os.Stat` reports
  `IsNotExist`).
* The process-wide mutable registry `ExistingLayers` and the pointer graph
  of `ContainerLayer` values are embedded as an explicit state `St` mapping
  a normalized hash to the (unique) node stored under it; a Go
  `*ContainerLayer` pointer is represented by that key, which is faithful
  because `NewContainerLayer` stores every node it creates under its
  normalized hash and always returns the registered node.
* Fallible Go methods return `Except GoError`; mutation is state passing.
* Recursion along the on-disk parent chain is unbounded in Go; the
  embedding uses an explicit fuel parameter, `GoError.outOfFuel` marking
  exhaustion.
* To reason about "expensive work performed at most once", the state also
  carries instrumentation traces: the list of size-file reads and of
  parent-file probes performed, in order.  The traces influence nothing.
-/

/-! ## String primitives (Go `strings` / `strconv`) -/

/-- `strings.Split s ":"` on the character list of a Go string: splits
around every occurrence of `':'`.  Always returns at least one piece. -/
def splitColonAux : List Char → List (List Char)
  | [] => [[]]
  | c :: rest =>
    if c = ':' then [] :: splitColonAux rest
    else
      match splitColonAux rest with
      | [] => [[c]]
      | t :: ts => (c :: t) :: ts

/-- `strings.Split s ":"` — the form used throughout the source. -/
def splitOnColon (s : String) : List String :=
  (splitColonAux s.data).map String.mk

/-- The identifier-normalization idiom repeated in the source
(`NewContainerLayer`, `ContainerLayer.Init`, `ContainerLayer.GetParent`):
`bits := strings.Split(s, ":"); if len(bits) == 2 { s = bits[1] }`.
When the split has exactly two pieces the second one is taken, otherwise
the input is returned unchanged. -/
def normalizeHash (s : String) : String :=
  let bits := splitOnColon s
  if bits.length = 2 then bits.getD 1 s else s

/-- Decimal digit run to a value: `none` unless the list is a non-empty
run of ASCII digits. -/
def decDigits? (l : List Char) : Option Nat :=
  match l with
  | [] => none
  | _ =>
    if l.all (fun c => c.isDigit) then
      some (l.foldl (fun a c => a * 10 + (c.toNat - 48)) 0)
    else none

/-- `strconv.ParseInt(s, 10, 64)`: optional sign, a non-empty digit run,
and the value must fit in a signed 64-bit integer.  `none` is Go's error
return (in particular on the empty string). -/
def parseInt64 (s : String) : Option Int :=
  let signDigits : Bool × List Char :=
    match s.data with
    | '-' :: rest => (true, rest)
    | '+' :: rest => (false, rest)
    | l => (false, l)
  match decDigits? signDigits.2 with
  | none => none
  | some n =>
    let v : Int := if signDigits.1 then -(n : Int) else (n : Int)
    if -(2 ^ 63) ≤ v ∧ v ≤ 2 ^ 63 - 1 then some v else none

/-- `getHashFromSha256` (filesystem.go): if the string starts with
`"sha256:"`, remove every occurrence of `"sha256:"` from it
(`strings.Replace(str, "sha256:", "", -1)`); otherwise return it
unchanged.  `removeSha256Aux` is the replace-all loop: left-to-right,
non-overlapping. -/
def removeSha256Aux : List Char → List Char
  | [] => []
  | c :: rest =>
    if ("sha256:".data).isPrefixOf (c :: rest) then
      removeSha256Aux ((c :: rest).drop ("sha256:".data).length)
    else
      c :: removeSha256Aux rest
termination_by l => l.length
decreasing_by
  · simp only [List.length_drop, List.length_cons]
    omega
  · simp

def getHashFromSha256 (str : String) : String :=
  if ("sha256:".data).isPrefixOf str.data then
    String.mk (removeSha256Aux str.data)
  else str

/-! ## Data model -/

/-- The `FilesystemPather` interface of the newer version.  The interface
declaration itself is in a repository file not present under `src/`; its
method set is the one implemented by every plugin under `src/plugins/`
(overlay2, aufs, devicemapper) and used by `container.go`, `functions.go`
and the layer code. -/
structure FilesystemPather where
  GetContainerMountFilePath : String → String → String
  GetParentFileLocation : String → String → String
  GetLayerSizePath : String → String → String
  GetLayerParentPath : String → String → String
  GetCacheIDPath : String → String → String
  GetMntPath : String → String → String

/-- The overlay2 plugin (`src/plugins/overlay2/overlay2.go`): concrete
path templates, used below to instantiate witnesses. -/
def overlay2 : FilesystemPather where
  GetContainerMountFilePath fsPath containerHash :=
    fsPath ++ "/image/overlay2/layerdb/mounts/" ++ containerHash ++ "/mount-id"
  GetParentFileLocation fsPath containerHash :=
    fsPath ++ "/image/overlay2/layerdb/mounts/" ++ containerHash ++ "/parent"
  GetLayerSizePath fsPath layerHash :=
    fsPath ++ "/image/overlay2/layerdb/sha256/" ++ layerHash ++ "/size"
  GetLayerParentPath fsPath layerHash :=
    fsPath ++ "/image/overlay2/layerdb/sha256/" ++ layerHash ++ "/parent"
  GetCacheIDPath fsPath layerHash :=
    fsPath ++ "/image/overlay2/layerdb/sha256/" ++ layerHash ++ "/cache-id"
  GetMntPath fsPath layerHash :=
    fsPath ++ "/overlay2/mnt/" ++ layerHash ++ "/"

/-- Modelled from the spec: `DockerInspectResult` is declared in a
repository file not present under `src/`.  Per §6 of the spec the external
inspector returns "display name, status string, process id, restart count,
start timestamp"; only `Name` is consumed by the embedded code. -/
structure DockerInspectResult where
  Name : String
  Status : String := ""
  Pid : Int := 0
  RestartCount : Int := 0
  StartedAt : String := ""
deriving Repr, DecidableEq

/-- `ContainerLayer` (newer version): one content-addressed layer node.
The Go `Parent *ContainerLayer` pointer is represented by the parent's
registry key (`none` is the nil pointer); the `Filesystem FilesystemPather`
field is factored out into the ambient `Ctx` because every node of a run
stores the single plugin loaded at startup. -/
structure ContainerLayer where
  Size : Int := 0
  Hash : String
  Location : String := ""
  Parent : Option String := none
  SharedCount : Nat := 0
  Containers : List String := []
deriving Repr, DecidableEq

/-- The mutable process state: the registry map `ExistingLayers`, plus two
instrumentation traces (size-file reads and parent-file probes performed,
in order) used to state at-most-once-work claims.  The traces influence no
control flow. -/
structure St where
  ExistingLayers : String → Option ContainerLayer
  sizeReads : List String := []
  parentProbes : List String := []

/-- Store (or overwrite) the node under key `k`. -/
def St.insertLayer (s : St) (k : String) (v : ContainerLayer) : St :=
  { s with ExistingLayers := fun h => if h = k then some v else s.ExistingLayers h }

/-- The state at program start: `var ExistingLayers = map[string]*ContainerLayer{}`. -/
def emptySt : St :=
  { ExistingLayers := fun _ => none }

/-- External collaborators of a run: file contents by path (`none` =
absent/unreadable, the case where `ioutil.ReadFile` errors and `os.Stat`
reports not-exist), `docker inspect` (`none` = command or JSON failure,
`some l` = the decoded array), and `du -sb` folder sizes (`none` = the
`CalculateFolderSize` error case). -/
structure World where
  fs : String → Option String
  inspect : String → Option (List DockerInspectResult) := fun _ => none
  folderSize : String → Option Int := fun _ => none

/-- Ambient context of a run: the loaded plugin, the `-lib-path` flag value
(`*fsPath`, declared in a repository file not present under `src/`), and
the external world. -/
structure Ctx where
  P : FilesystemPather
  fsPath : String
  w : World

/-- Go error values produced by the embedded code. -/
inductive GoError
  | fileError (path : String)        -- a wrapped `ioutil.ReadFile`/`os.Stat` failure
  | parseIntError (str : String)     -- a wrapped `strconv.ParseInt` failure
  | hashWrong (contents : String)    -- `errors.New("The hash is wrong: " + contents)`
  | noSuchContainer (hash : String)  -- `errors.New("No containers matching hash: " + hash + " exist!")`
  | missingNode (hash : String)      -- method receiver not in the registry (unreachable in real runs)
  | outOfFuel                        -- fuel exhaustion of the embedding, not a Go error
deriving Repr, DecidableEq

/-! ## Layer registry: `NewContainerLayer` (src/unnamed/part_000) -/

/-- `NewContainerLayer(sha256hash, filesystem, container)`.  Normalizes
the hash (`strings.Split` on `":"`, take `bits[1]` when there are exactly
two pieces), then either bumps the existing node's `SharedCount` —
appending the container's display name when a container was supplied — or
creates and registers a fresh node with `SharedCount = 1`.  The Go
`container *Container` argument is passed as the container's display name
`container.ContainerDetails.Name` (the only field the function reads),
`none` for the nil pointer.  Returns the registry key standing for the
returned `*ContainerLayer`. -/
def NewContainerLayer (sha256hash : String) (container : Option String)
    (s : St) : String × St :=
  let h := normalizeHash sha256hash
  match s.ExistingLayers h with
  | some value =>
    match container with
    | none =>
      (h, s.insertLayer h { value with SharedCount := value.SharedCount + 1 })
    | some name =>
      (h, s.insertLayer h { value with
            SharedCount := value.SharedCount + 1,
            Containers := value.Containers ++ [name] })
  | none =>
    let layer : ContainerLayer :=
      { Hash := h, SharedCount := 1,
        Containers := match container with | none => [] | some name => [name] }
    (h, s.insertLayer h layer)

/-! ## Layer chain builder: `ReadSize`, `Init`, `GetParent` (src/unnamed/part_000) -/

/-- `ContainerLayer.ReadSize`: read the layer's size record.  A missing
file is a returned (wrapped) error.  Empty contents first set the `-100`
sentinel and then fall through to `strconv.ParseInt("")`, whose failure is
also a returned error.  Otherwise the parsed value is stored.  The method
receiver is the registry key of the node. -/
def ContainerLayer.ReadSize (ctx : Ctx) (h : String) (s : St) :
    Except GoError Unit × St :=
  match s.ExistingLayers h with
  | none => (.error (.missingNode h), s)
  | some c =>
    let sizeLocation := ctx.P.GetLayerSizePath ctx.fsPath c.Hash
    match ctx.w.fs sizeLocation with
    | none => (.error (.fileError sizeLocation), s)
    | some contents =>
      let s := { s with sizeReads := s.sizeReads ++ [sizeLocation] }
      let s := if contents = "" then s.insertLayer h { c with Size := -100 } else s
      match parseInt64 contents with
      | none => (.error (.parseIntError contents), s)
      | some size => (.ok (), s.insertLayer h { c with Size := size })

/-- Body of `ContainerLayer.GetParent`, parametrized over the `Init`
invoked on the parent node (fuel plumbing of the embedding; the two Go
methods are mutually recursive and are tied together below so that the
recursion is structural on the fuel).

`GetParent`: probe the layer's parent record (`os.Stat`); absence means no
parent — `c.Parent = nil`, success.  When present, the contents must split
into exactly two pieces around `":"`, otherwise
`errors.New("The hash is wrong: " + contents)` is returned and no node is
created.  On success the parent node is obtained from the registry
(`NewContainerLayer(parentHash, c.Filesystem, nil)`), linked, and
initialized — and a failure of that `Init` is swallowed
(`if err != nil { return nil }` on lines 145-147 of part_000). -/
def GetParentBody (initFn : String → St → Except GoError Unit × St)
    (ctx : Ctx) (h : String) (s : St) : Except GoError Unit × St :=
  match s.ExistingLayers h with
  | none => (.error (.missingNode h), s)
  | some c =>
    let parentLocation := ctx.P.GetLayerParentPath ctx.fsPath c.Hash
    let s := { s with parentProbes := s.parentProbes ++ [parentLocation] }
    match ctx.w.fs parentLocation with
    | none =>
      -- "If there is no file existing on disk, this is the last layer"
      (.ok (), s.insertLayer h { c with Parent := none })
    | some contents =>
      let bits := splitOnColon contents
      if bits.length = 2 then
        let parentHash := bits.getD 1 contents  -- `bits[1]`; in range since `bits.length = 2`
        match NewContainerLayer parentHash none s with
        | (pkey, s) =>
          let s := s.insertLayer h { c with Parent := some pkey }
          match initFn pkey s with
          | (.error _, s) => (.ok (), s)   -- `if err != nil { return nil }`
          | (.ok (), s) => (.ok (), s)
      else
        (.error (.hashWrong contents), s)

/-- Body of `ContainerLayer.Init`, parametrized over the `GetParent` it
invokes: read the cache-id record (failure is returned), normalize it,
store the mount location; if the node already has a non-nil parent stop
there; otherwise `ReadSize` (failure is returned) and then `GetParent` —
whose returned error the source discards (`c.GetParent()` on line 91 of
part_000) before returning nil. -/
def InitBody (getParentFn : String → St → Except GoError Unit × St)
    (ctx : Ctx) (h : String) (s : St) : Except GoError Unit × St :=
  match s.ExistingLayers h with
  | none => (.error (.missingNode h), s)
  | some c =>
    let cacheIDLocation := ctx.P.GetCacheIDPath ctx.fsPath c.Hash
    match ctx.w.fs cacheIDLocation with
    | none => (.error (.fileError cacheIDLocation), s)
    | some contents =>
      let cacheID := normalizeHash contents
      let c := { c with Location := ctx.P.GetMntPath ctx.fsPath cacheID }
      let s := s.insertLayer h c
      match c.Parent with
      | some _ =>
        -- "the parent has already initialized. no need to do anything there"
        (.ok (), s)
      | none =>
        match ContainerLayer.ReadSize ctx h s with
        | (.error e, s) => (.error e, s)
        | (.ok (), s) =>
          -- `c.GetParent()` — the returned error is discarded
          (.ok (), (getParentFn h s).2)

/-- `ContainerLayer.Init` at a given fuel: each recursive descent into the
parent chain consumes one unit. -/
def InitFuel (ctx : Ctx) : Nat → String → St → Except GoError Unit × St
  | 0 => fun _ s => (.error .outOfFuel, s)
  | fuel + 1 => fun h s => InitBody (GetParentBody (InitFuel ctx fuel) ctx) ctx h s

/-- `ContainerLayer.Init` (src/unnamed/part_000, lines 70-93). -/
def ContainerLayer.Init (ctx : Ctx) (fuel : Nat) (h : String) (s : St) :
    Except GoError Unit × St :=
  InitFuel ctx fuel h s

/-- `ContainerLayer.GetParent` (src/unnamed/part_000, lines 119-150): its
recursive call `c.Parent.Init()` runs at the given fuel. -/
def ContainerLayer.GetParent (ctx : Ctx) (fuel : Nat) (h : String) (s : St) :
    Except GoError Unit × St :=
  GetParentBody (InitFuel ctx fuel) ctx h s

/-- Length of the parent chain starting at `h`, following `Parent` links
through the registry (observer used to state leaf-termination claims;
bounded by fuel). -/
def chainLen (s : St) (fuel : Nat) (h : String) : Nat :=
  match fuel with
  | 0 => 0
  | fuel' + 1 =>
    match s.ExistingLayers h with
    | none => 0
    | some c =>
      match c.Parent with
      | none => 1
      | some p => 1 + chainLen s fuel' p

/-! ## Container record builder (src/container.go, src/functions.go) -/

/-- `Container` (newer version, container.go).  `ParentChain` is the
registry key of the head layer node; `ContainerDetails` is nil before
`GetContainerDetails` runs. -/
structure Container where
  Name : String := ""
  Hash : String
  COWSize : Int := 0
  COWLocation : String := ""
  ParentChain : Option String := none
  ContainerDetails : Option DockerInspectResult := none
deriving Repr, DecidableEq

/-- `Container.GetContainerDetails`: run `docker inspect`, decode the JSON
array; a command/decode failure is a returned error, an empty array is the
"No containers matching hash" error, otherwise the first record is
stored. -/
def Container.GetContainerDetails (ctx : Ctx) (c : Container) :
    Except GoError Container :=
  match ctx.w.inspect c.Hash with
  | none => .error (.fileError ("docker inspect " ++ c.Hash))
  | some decoded =>
    match decoded with
    | [] => .error (.noSuchContainer c.Hash)
    | d :: _ => .ok { c with ContainerDetails := some d }

/-- `Container.GetCOWSize`: read the mount-id file (failure returned),
resolve the real mount location, measure it via `CalculateFolderSize`
(failure returned), store size and location. -/
def Container.GetCOWSize (ctx : Ctx) (c : Container) :
    Except GoError Container :=
  let mountFileLocation := ctx.P.GetContainerMountFilePath ctx.fsPath c.Hash
  match ctx.w.fs mountFileLocation with
  | none => .error (.fileError mountFileLocation)
  | some contents =>
    let mountLocation := ctx.P.GetMntPath ctx.fsPath contents
    match ctx.w.folderSize mountLocation with
    | none => .error (.fileError mountLocation)
    | some size => .ok { c with COWSize := size, COWLocation := mountLocation }

/-- `Container.GetParentLayer`: read the container's parent file (failure
returned), resolve the chain head through the registry with this container
as context (`NewContainerLayer(string(contents), c.Filesystem, c)` — the
display name recorded is `c.ContainerDetails.Name`), then `Init` the head;
an `Init` failure is propagated. -/
def Container.GetParentLayer (ctx : Ctx) (fuel : Nat) (c : Container) (s : St) :
    Except GoError Container × St :=
  let parentFileLocation := ctx.P.GetParentFileLocation ctx.fsPath c.Hash
  match ctx.w.fs parentFileLocation with
  | none => (.error (.fileError parentFileLocation), s)
  | some contents =>
    let name := match c.ContainerDetails with | some d => d.Name | none => ""
    match NewContainerLayer contents (some name) s with
    | (k, s) =>
      let c := { c with ParentChain := some k }
      match ContainerLayer.Init ctx fuel k s with
      | (.error e, s) => (.error e, s)
      | (.ok (), s) => (.ok c, s)

/-- `Container.Init`: `GetContainerDetails`, `GetCOWSize`,
`GetParentLayer`, each failure aborting the build. -/
def Container.Init (ctx : Ctx) (fuel : Nat) (c : Container) (s : St) :
    Except GoError Container × St :=
  match c.GetContainerDetails ctx with
  | .error e => (.error e, s)
  | .ok c =>
    match c.GetCOWSize ctx with
    | .error e => (.error e, s)
    | .ok c => c.GetParentLayer ctx fuel s

/-- The fresh record built per directory entry in `GetAllContainers`:
`&Container{Hash: file.Name(), Filesystem: filesystemPlugin}`. -/
def mkContainer (file : String) : Container := { Hash := file }

/-- The log line `GetAllContainers` prints for a failing container. -/
def skipLogLine (file : String) : String :=
  "File " ++ file ++ " does not have an associated container, skipping..."

/-- `GetAllContainers` (functions.go): for every entry of the containers
directory (passed here as the list `files` that `ioutil.ReadDir`
returned), build a record and `Init` it; on error log and skip, otherwise
append.  Returns the built records and the log lines, threading the
registry state. -/
def GetAllContainers (ctx : Ctx) (fuel : Nat) (files : List String) (s : St) :
    (List Container × List String) × St :=
  match files with
  | [] => (([], []), s)
  | f :: rest =>
    match Container.Init ctx fuel (mkContainer f) s with
    | (.error _, s) =>
      match GetAllContainers ctx fuel rest s with
      | ((cs, logs), s) => ((cs, skipLogLine f :: logs), s)
    | (.ok c, s) =>
      match GetAllContainers ctx fuel rest s with
      | ((cs, logs), s) => ((c :: cs, logs), s)

/-- Per-entry build outcome, in enumeration order, threading the same
state the enumeration threads: the specification-side view of
`GetAllContainers` ("a failing container is logged and skipped,
enumeration continues"). -/
def initOutcomes (ctx : Ctx) (fuel : Nat) (files : List String) (s : St) :
    List (String × Bool) × St :=
  match files with
  | [] => ([], s)
  | f :: rest =>
    match Container.Init ctx fuel (mkContainer f) s with
    | (r, s) =>
      match initOutcomes ctx fuel rest s with
      | (out, s) => ((f, match r with | .ok _ => true | .error _ => false) :: out, s)

/-! ## Orphan detector (src/filesystem.go `main`, older version) -/

namespace OldVer

/-- `ContainerParent` (filesystem.go): one entry of a container's flat
parent list. -/
structure ContainerParent where
  Hash : String := ""
  IsLeaf : Bool := false
  ParentHash : String := ""
  CacheDiffSize : Int := 0
  CacheID : String := ""
deriving Repr, DecidableEq

/-- `Container` (filesystem.go): the fields the orphan scan reads, with
`Parents` as the flat list the recursive `retrieveParents`/`getParent`
chain pushed back. -/
structure Container where
  InitID : String := ""
  MountID : String := ""
  InitDiffSize : Int := 0
  MountDiffSize : Int := 0
  Parents : List ContainerParent := []
deriving Repr, DecidableEq

/-- The inner loop of the orphan scan over one container's `Parents` list:
`if e.Value.(ContainerParent).CacheID == folder { found = true; break }`. -/
def scanParents (folder : String) : List ContainerParent → Bool
  | [] => false
  | p :: rest => if p.CacheID = folder then true else scanParents folder rest

/-- The loop over `allContainers` for one folder (filesystem.go lines
155-174).  The `InitID`/`MountID` matches `break` out of this loop with
`found = true`; after an inner-loop `CacheID` match the source keeps
iterating the remaining containers, but `found` is already `true` and
nothing else is written, so returning `true` directly is observationally
identical.  The source iterates a Go map (arbitrary order); the scan's
boolean result is order-independent, and it is stated here over a list. -/
def scanContainers (folder : String) : List Container → Bool
  | [] => false
  | c :: rest =>
    if folder = c.InitID then true
    else if folder = c.MountID then true
    else if scanParents folder c.Parents then true
    else scanContainers folder rest

/-- The orphan report of `main` (filesystem.go lines 152-183): every
on-disk diff folder for which the scan found no reference is printed as
orphaned, in inventory order. -/
def findOrphans (diffFolders : List String) (cs : List Container) : List String :=
  diffFolders.filter (fun folder => !(scanContainers folder cs))

/-- The reachable set of the claim: a folder is reachable when some
container's mutable-layer (mount) id, init-layer id, or some cache id in
its parent list equals it. -/
def Reachable (cs : List Container) (folder : String) : Prop :=
  ∃ c ∈ cs, folder = c.InitID ∨ folder = c.MountID ∨ ∃ p ∈ c.Parents, p.CacheID = folder

end OldVer

deriving instance DecidableEq for Except

/-! ## Concrete worlds used by witnesses and counterexamples

All use the overlay2 plugin with `-lib-path` value `"/d"` and a single
layer hash `"h1"` registered in the start state `st1`. -/

/-- Registry holding just the node for `"h1"`, as left by
`NewContainerLayer "h1"` with no container context. -/
def st1 : St := (NewContainerLayer "h1" none emptySt).2

/-- World A: `h1` has cache-id `"c1"` and size record `"5"`, and no parent
record (a terminal layer). -/
def ctxA : Ctx :=
  { P := overlay2, fsPath := "/d",
    w := { fs := fun p =>
            if p = overlay2.GetCacheIDPath "/d" "h1" then some "c1"
            else if p = overlay2.GetLayerSizePath "/d" "h1" then some "5"
            else none } }

/-- World B: `h1` has cache-id `"c1"` and an EMPTY size record. -/
def ctxB : Ctx :=
  { P := overlay2, fsPath := "/d",
    w := { fs := fun p =>
            if p = overlay2.GetCacheIDPath "/d" "h1" then some "c1"
            else if p = overlay2.GetLayerSizePath "/d" "h1" then some ""
            else none } }

/-- World C: `h1` has cache-id `"c1"`, size `"5"`, and a parent record
containing the malformed value `"not-a-valid-format"`. -/
def ctxC : Ctx :=
  { P := overlay2, fsPath := "/d",
    w := { fs := fun p =>
            if p = overlay2.GetCacheIDPath "/d" "h1" then some "c1"
            else if p = overlay2.GetLayerSizePath "/d" "h1" then some "5"
            else if p = overlay2.GetLayerParentPath "/d" "h1" then some "not-a-valid-format"
            else none } }

/-- World D: the only file on disk is `h1`'s parent record `"sha256:p1"`;
in particular the parent layer `p1` has no cache-id record, so its own
`Init` must fail. -/
def ctxD : Ctx :=
  { P := overlay2, fsPath := "/d",
    w := { fs := fun p =>
            if p = overlay2.GetLayerParentPath "/d" "h1" then some "sha256:p1"
            else none } }

/-! ## C1 — structural sharing across two containers -/

/-- C1: resolving the same digest `D` for container `A` and then for
container `B` (on a registry not yet holding `D`'s normalized digest)
returns the same registry node; afterwards that node's `SharedCount` is 2
and its `Containers` list is `[A, B]` in call order. -/
theorem resolve_shared_digest_two_containers
    (D A B : String) (s : St)
    (hfresh : s.ExistingLayers (normalizeHash D) = none) :
    (NewContainerLayer D (some A) s).1
      = (NewContainerLayer D (some B) (NewContainerLayer D (some A) s).2).1
    ∧ (NewContainerLayer D (some B) (NewContainerLayer D (some A) s).2).2.ExistingLayers
          (NewContainerLayer D (some A) s).1
        = some { Hash := normalizeHash D, SharedCount := 2, Containers := [A, B] } := by
  simp [NewContainerLayer, St.insertLayer, hfresh]

/-- Witness for C1 at digest `"sha256:abc"`, containers `"web"` then
`"api"`, starting from the empty registry. -/
theorem resolve_shared_digest_two_containers_witness :
    emptySt.ExistingLayers (normalizeHash "sha256:abc") = none
    ∧ ((NewContainerLayer "sha256:abc" (some "web") emptySt).1
        = (NewContainerLayer "sha256:abc" (some "api")
            (NewContainerLayer "sha256:abc" (some "web") emptySt).2).1
      ∧ (NewContainerLayer "sha256:abc" (some "api")
            (NewContainerLayer "sha256:abc" (some "web") emptySt).2).2.ExistingLayers
              (NewContainerLayer "sha256:abc" (some "web") emptySt).1
          = some { Hash := normalizeHash "sha256:abc", SharedCount := 2,
                   Containers := ["web", "api"] }) :=
  ⟨rfl, resolve_shared_digest_two_containers "sha256:abc" "web" "api" emptySt rfl⟩

/-! ## C2 — orphan report iff unreachable -/

theorem scanParents_true_iff (folder : String) (ps : List OldVer.ContainerParent) :
    OldVer.scanParents folder ps = true ↔ ∃ p ∈ ps, p.CacheID = folder := by
  induction ps with
  | nil => simp [OldVer.scanParents]
  | cons p rest ih =>
    by_cases hp : p.CacheID = folder
    · simp [OldVer.scanParents, hp]
    · simp [OldVer.scanParents, hp, ih]

theorem scanContainers_true_iff (folder : String) (cs : List OldVer.Container) :
    OldVer.scanContainers folder cs = true ↔ OldVer.Reachable cs folder := by
  induction cs with
  | nil => simp [OldVer.scanContainers, OldVer.Reachable]
  | cons c rest ih =>
    by_cases h1 : folder = c.InitID
    · simp [OldVer.scanContainers, h1, OldVer.Reachable]
    · by_cases h2 : folder = c.MountID
      · simp [OldVer.scanContainers, h1, h2, OldVer.Reachable]
      · by_cases h3 : OldVer.scanParents folder c.Parents = true
        · have := (scanParents_true_iff folder c.Parents).mp h3
          simp only [OldVer.scanContainers, if_neg h1, if_neg h2, if_pos h3]
          constructor
          · intro _
            exact ⟨c, by simp, Or.inr (Or.inr this)⟩
          · intro _; trivial
        · have hps : ¬ ∃ p ∈ c.Parents, p.CacheID = folder := by
            rw [← scanParents_true_iff]; exact h3
          simp only [OldVer.scanContainers, if_neg h1, if_neg h2, if_neg h3]
          rw [ih]
          unfold OldVer.Reachable
          constructor
          · rintro ⟨c', hc', hor⟩
            exact ⟨c', List.mem_cons_of_mem _ hc', hor⟩
          · rintro ⟨c', hc', hor⟩
            rcases List.mem_cons.mp hc' with rfl | hmem
            · rcases hor with h | h | h
              · exact absurd h h1
              · exact absurd h h2
              · exact absurd h hps
            · exact ⟨c', hmem, hor⟩

/-- C2: a folder of the on-disk diff inventory is reported orphaned by the
scan in `main` iff it is absent from the reachable set — it equals no
container's mount id, no container's init id, and no cache id in any
container's parent list. -/
theorem orphan_report_iff_unreachable
    (diffFolders : List String) (cs : List OldVer.Container) (f : String) :
    f ∈ OldVer.findOrphans diffFolders cs
      ↔ f ∈ diffFolders ∧ ¬ OldVer.Reachable cs f := by
  unfold OldVer.findOrphans
  rw [List.mem_filter]
  constructor
  · rintro ⟨hmem, hscan⟩
    refine ⟨hmem, fun hr => ?_⟩
    rw [← scanContainers_true_iff] at hr
    simp [hr] at hscan
  · rintro ⟨hmem, hr⟩
    rw [← scanContainers_true_iff] at hr
    exact ⟨hmem, by simp [Bool.not_eq_true] at hr ⊢; exact hr⟩

/-! ## C3 — size-record failures are NOT absorbed (code bug) -/

/-- C3 (code bug in the source): with an empty size record, `ReadSize`
sets the `-100` sentinel but then falls through to
`strconv.ParseInt("")`, whose error it returns, and `Init` propagates
that error — the chain build aborts instead of absorbing the failure.  A
missing size record likewise aborts with the wrapped read error.  All
evaluated on concrete worlds: in world B `h1`'s size record exists and is
empty; in world D it is missing. -/
theorem size_record_failure_aborts_chain :
    (ContainerLayer.ReadSize ctxB "h1" st1).1 = .error (.parseIntError "")
    ∧ ((ContainerLayer.ReadSize ctxB "h1" st1).2.ExistingLayers "h1").map
        ContainerLayer.Size = some (-100)
    ∧ (ContainerLayer.Init ctxB 3 "h1" st1).1 = .error (.parseIntError "")
    ∧ (ContainerLayer.ReadSize ctxD "h1" st1).1
        = .error (.fileError (overlay2.GetLayerSizePath "/d" "h1")) :=
  ⟨rfl, rfl, rfl, rfl⟩

/-! ## C8 — absent parent record is the terminal case -/

/-- C8: when the layer's parent record is absent on disk, `GetParent`
succeeds, the node's parent is set to nil, and the chain from that layer
has length 1. -/
theorem absent_parent_record_terminates_chain
    (ctx : Ctx) (fuel : Nat) (h : String) (s : St) (node : ContainerLayer)
    (hn : s.ExistingLayers h = some node)
    (habsent : ctx.w.fs (ctx.P.GetLayerParentPath ctx.fsPath node.Hash) = none) :
    (ContainerLayer.GetParent ctx fuel h s).1 = .ok ()
    ∧ (ContainerLayer.GetParent ctx fuel h s).2.ExistingLayers h
        = some { node with Parent := none }
    ∧ ∀ g, chainLen (ContainerLayer.GetParent ctx fuel h s).2 (g + 1) h = 1 := by
  refine ⟨?_, ?_, ?_⟩ <;>
    simp [ContainerLayer.GetParent, GetParentBody, hn, habsent, St.insertLayer, chainLen]

/-- Witness for C8 in world A (no parent record for `h1`), with the chain
length read at fuel 5. -/
theorem absent_parent_record_terminates_chain_witness :
    (st1.ExistingLayers "h1" = some { Hash := "h1", SharedCount := 1 }
     ∧ ctxA.w.fs (ctxA.P.GetLayerParentPath ctxA.fsPath
          ({ Hash := "h1", SharedCount := 1 } : ContainerLayer).Hash) = none)
    ∧ ((ContainerLayer.GetParent ctxA 3 "h1" st1).1 = .ok ()
       ∧ (ContainerLayer.GetParent ctxA 3 "h1" st1).2.ExistingLayers "h1"
           = some { Hash := "h1", SharedCount := 1, Parent := none }
       ∧ chainLen (ContainerLayer.GetParent ctxA 3 "h1" st1).2 (4 + 1) "h1" = 1) := by
  have h := absent_parent_record_terminates_chain ctxA 3 "h1" st1
    { Hash := "h1", SharedCount := 1 } rfl rfl
  exact ⟨⟨rfl, rfl⟩, h.1, h.2.1, h.2.2 4⟩

/-! ## C6 — re-initialization is skipped only for nodes with a parent -/

/-- C6 counterexample: in world A the terminal layer `h1` is fully
initialized by the first `Init` (size read, parent probed and known
absent), yet a second `Init` performs a second size read and a second
parent probe — the at-most-once-per-digest claim fails for a node with no
parent. -/
theorem reinit_parentless_repeats_work_counterexample :
    (ContainerLayer.Init ctxA 3 "h1" st1).1 = .ok ()
    ∧ ((ContainerLayer.Init ctxA 3 "h1" st1).2.ExistingLayers "h1").map
        ContainerLayer.Parent = some none
    ∧ (ContainerLayer.Init ctxA 3 "h1" st1).2.sizeReads.length = 1
    ∧ (ContainerLayer.Init ctxA 3 "h1"
        (ContainerLayer.Init ctxA 3 "h1" st1).2).2.sizeReads.length = 2
    ∧ (ContainerLayer.Init ctxA 3 "h1"
        (ContainerLayer.Init ctxA 3 "h1" st1).2).2.parentProbes.length = 2 :=
  ⟨rfl, rfl, rfl, rfl, rfl⟩

/-- C6 amended: re-initialization is skipped exactly when the node holds a
non-nil parent — then `Init` succeeds (given a readable cache-id record),
performs no size read and no parent probe, and rewrites only the node's
`Location`, leaving `Size` and `Parent` (and everything else) unchanged. -/
theorem reinit_with_parent_skips_work
    (ctx : Ctx) (fuel : Nat) (h : String) (s : St) (node : ContainerLayer)
    (p cc : String)
    (hn : s.ExistingLayers h = some node)
    (hp : node.Parent = some p)
    (hc : ctx.w.fs (ctx.P.GetCacheIDPath ctx.fsPath node.Hash) = some cc) :
    (ContainerLayer.Init ctx (fuel + 1) h s).1 = .ok ()
    ∧ (ContainerLayer.Init ctx (fuel + 1) h s).2.sizeReads = s.sizeReads
    ∧ (ContainerLayer.Init ctx (fuel + 1) h s).2.parentProbes = s.parentProbes
    ∧ (ContainerLayer.Init ctx (fuel + 1) h s).2.ExistingLayers h
        = some { node with
                 Location := ctx.P.GetMntPath ctx.fsPath (normalizeHash cc) } := by
  refine ⟨?_, ?_, ?_, ?_⟩ <;>
    simp [ContainerLayer.Init, InitFuel, InitBody, hn, hc, hp, St.insertLayer]

/-- Witness for C6's amended claim: `h1` already linked to parent `"p0"`
with size 7, cache-id record `"c1"` readable in world A. -/
theorem reinit_with_parent_skips_work_witness :
    ((emptySt.insertLayer "h1"
        { Hash := "h1", Size := 7, Parent := some "p0", SharedCount := 1 }).ExistingLayers "h1"
       = some { Hash := "h1", Size := 7, Parent := some "p0", SharedCount := 1 }
     ∧ ({ Hash := "h1", Size := 7, Parent := some "p0", SharedCount := 1 }
          : ContainerLayer).Parent = some "p0"
     ∧ ctxA.w.fs (ctxA.P.GetCacheIDPath ctxA.fsPath "h1") = some "c1")
    ∧ ((ContainerLayer.Init ctxA (2 + 1) "h1"
          (emptySt.insertLayer "h1"
            { Hash := "h1", Size := 7, Parent := some "p0", SharedCount := 1 })).1 = .ok ()
       ∧ (ContainerLayer.Init ctxA (2 + 1) "h1"
            (emptySt.insertLayer "h1"
              { Hash := "h1", Size := 7, Parent := some "p0", SharedCount := 1 })).2.ExistingLayers "h1"
           = some { Hash := "h1", Size := 7, Parent := some "p0", SharedCount := 1,
                    Location := ctxA.P.GetMntPath ctxA.fsPath (normalizeHash "c1") }) := by
  have h := reinit_with_parent_skips_work ctxA 2 "h1"
    (emptySt.insertLayer "h1"
      { Hash := "h1", Size := 7, Parent := some "p0", SharedCount := 1 })
    { Hash := "h1", Size := 7, Parent := some "p0", SharedCount := 1 }
    "p0" "c1" rfl rfl rfl
  exact ⟨⟨rfl, rfl, rfl⟩, h.1, h.2.2.2⟩

/-! ## C7 — malformed parent pointer: error raised but discarded -/

/-- C7 counterexample: in world C the layer `h1`'s parent record contains
`"not-a-valid-format"`.  `GetParent` does return the malformed-hash error
and registers no node for the unparseable value, but `Init` — the chain
construction — discards that error and reports success, contradicting the
claim that chain construction fails with a malformed-identifier error. -/
theorem malformed_parent_pointer_counterexample :
    ctxC.w.fs (overlay2.GetLayerParentPath "/d" "h1") = some "not-a-valid-format"
    ∧ (ContainerLayer.GetParent ctxC 3 "h1" st1).1
        = .error (.hashWrong "not-a-valid-format")
    ∧ (ContainerLayer.Init ctxC 3 "h1" st1).1 = .ok ()
    ∧ (ContainerLayer.Init ctxC 3 "h1" st1).2.ExistingLayers "not-a-valid-format"
        = none :=
  ⟨rfl, rfl, rfl, rfl⟩

/-- C7 amended: when a layer's parent record exists but its contents do
not split into exactly two pieces around `":"`, `GetParent` fails with the
malformed-hash error and creates no registry node — but the error is
discarded by its caller `Init`, so chain construction itself still reports
success (shown under the hypotheses that make `Init` reach `GetParent`:
nil parent, readable cache-id record, parseable size record). -/
theorem malformed_parent_pointer_error_discarded
    (ctx : Ctx) (fuel : Nat) (h : String) (s : St) (node : ContainerLayer)
    (contents : String)
    (hn : s.ExistingLayers h = some node)
    (hpar : ctx.w.fs (ctx.P.GetLayerParentPath ctx.fsPath node.Hash) = some contents)
    (hsplit : (splitOnColon contents).length ≠ 2) :
    (ContainerLayer.GetParent ctx fuel h s).1 = .error (.hashWrong contents)
    ∧ (ContainerLayer.GetParent ctx fuel h s).2.ExistingLayers = s.ExistingLayers
    ∧ ∀ (cc sz : String) (n : Int), node.Parent = none →
        ctx.w.fs (ctx.P.GetCacheIDPath ctx.fsPath node.Hash) = some cc →
        ctx.w.fs (ctx.P.GetLayerSizePath ctx.fsPath node.Hash) = some sz →
        parseInt64 sz = some n →
        (ContainerLayer.Init ctx (fuel + 1) h s).1 = .ok () := by
  refine ⟨?_, ?_, ?_⟩
  · simp [ContainerLayer.GetParent, GetParentBody, hn, hpar, hsplit]
  · simp [ContainerLayer.GetParent, GetParentBody, hn, hpar, hsplit]
  · intro cc sz n hpc hcc hsz hparse
    have hszne : sz ≠ "" := by
      intro he
      subst he
      rw [show parseInt64 "" = none from rfl] at hparse
      cases hparse
    simp [ContainerLayer.Init, InitFuel, InitBody, ContainerLayer.ReadSize,
          GetParentBody, hn, hpar, hsplit, hpc, hcc, hsz, hparse, hszne,
          St.insertLayer]

/-- Witness for C7's amended claim in world C. -/
theorem malformed_parent_pointer_error_discarded_witness :
    (st1.ExistingLayers "h1" = some { Hash := "h1", SharedCount := 1 }
     ∧ ctxC.w.fs (ctxC.P.GetLayerParentPath ctxC.fsPath "h1")
         = some "not-a-valid-format"
     ∧ (splitOnColon "not-a-valid-format").length ≠ 2
     ∧ parseInt64 "5" = some 5)
    ∧ ((ContainerLayer.GetParent ctxC 7 "h1" st1).1
         = .error (.hashWrong "not-a-valid-format")
       ∧ (ContainerLayer.GetParent ctxC 7 "h1" st1).2.ExistingLayers
           = st1.ExistingLayers
       ∧ (ContainerLayer.Init ctxC (7 + 1) "h1" st1).1 = .ok ()) := by
  have h := malformed_parent_pointer_error_discarded ctxC 7 "h1" st1
    { Hash := "h1", SharedCount := 1 } "not-a-valid-format" rfl rfl (by decide)
  exact ⟨⟨rfl, rfl, by decide, rfl⟩, h.1, h.2.1, h.2.2 "c1" "5" 5 rfl rfl rfl rfl⟩

/-! ## C4 — a failing parent `Init` is swallowed by `GetParent` -/

/-- The (key, state) at which `GetParent` invokes the freshly linked
parent's `Init`, given that it read `contents` from the child's parent
record and the split produced two pieces: probe trace extended, parent
node resolved through the registry with no container context
(`NewContainerLayer(bits[1], c.Filesystem, nil)`), child linked to it. -/
def getParentRecursionState (ctx : Ctx) (h : String) (s : St)
    (node : ContainerLayer) (contents : String) : String × St :=
  let parentLocation := ctx.P.GetLayerParentPath ctx.fsPath node.Hash
  let s1 : St := { s with parentProbes := s.parentProbes ++ [parentLocation] }
  match NewContainerLayer ((splitOnColon contents).getD 1 contents) none s1 with
  | (pkey, s2) => (pkey, s2.insertLayer h { node with Parent := some pkey })

/-- C4: when the child's parent record is present and well-formed, a
parent node is created, and if that parent's own `Init` fails (e.g. its
cache-id record is unreadable), `GetParent` still returns success — the
`if err != nil { return nil }` on part_000 lines 145-147 — and keeps the
state left behind by the failed initialization. -/
theorem parent_init_failure_swallowed
    (ctx : Ctx) (fuel : Nat) (h : String) (s : St) (node : ContainerLayer)
    (contents : String)
    (hn : s.ExistingLayers h = some node)
    (hpar : ctx.w.fs (ctx.P.GetLayerParentPath ctx.fsPath node.Hash) = some contents)
    (hsplit : (splitOnColon contents).length = 2)
    (e : GoError)
    (hfail : (ContainerLayer.Init ctx fuel
                (getParentRecursionState ctx h s node contents).1
                (getParentRecursionState ctx h s node contents).2).1
               = Except.error e) :
    (ContainerLayer.GetParent ctx fuel h s).1 = .ok ()
    ∧ (ContainerLayer.GetParent ctx fuel h s).2
        = (ContainerLayer.Init ctx fuel
            (getParentRecursionState ctx h s node contents).1
            (getParentRecursionState ctx h s node contents).2).2 := by
  unfold ContainerLayer.GetParent GetParentBody ContainerLayer.Init
  simp only [getParentRecursionState, ContainerLayer.Init] at hfail ⊢
  rw [hn]
  simp only [hpar, hsplit, if_pos]
  rcases hNC : NewContainerLayer ((splitOnColon contents).getD 1 contents) none
      { s with parentProbes := s.parentProbes ++ [ctx.P.GetLayerParentPath ctx.fsPath node.Hash] }
    with ⟨pkey, s2⟩
  rw [hNC] at hfail
  simp only at hfail ⊢
  rcases hI : InitFuel ctx fuel pkey
      (s2.insertLayer h { node with Parent := some pkey }) with ⟨r, s3⟩
  rw [hI] at hfail
  have hr : r = Except.error e := hfail
  subst hr
  exact ⟨rfl, rfl⟩

/-- Witness for C4 in world D: `h1`'s parent record reads `"sha256:p1"`,
and `p1` (which has no cache-id record) fails its `Init` with the wrapped
read error, yet `GetParent` reports success. -/
theorem parent_init_failure_swallowed_witness :
    (st1.ExistingLayers "h1" = some { Hash := "h1", SharedCount := 1 }
     ∧ ctxD.w.fs (ctxD.P.GetLayerParentPath ctxD.fsPath "h1") = some "sha256:p1"
     ∧ (splitOnColon "sha256:p1").length = 2
     ∧ (ContainerLayer.Init ctxD 3
          (getParentRecursionState ctxD "h1" st1
            { Hash := "h1", SharedCount := 1 } "sha256:p1").1
          (getParentRecursionState ctxD "h1" st1
            { Hash := "h1", SharedCount := 1 } "sha256:p1").2).1
         = Except.error (.fileError "/d/image/overlay2/layerdb/sha256/p1/cache-id"))
    ∧ (ContainerLayer.GetParent ctxD 3 "h1" st1).1 = .ok () := by
  have h := parent_init_failure_swallowed ctxD 3 "h1" st1
    { Hash := "h1", SharedCount := 1 } "sha256:p1" rfl rfl rfl
    (.fileError "/d/image/overlay2/layerdb/sha256/p1/cache-id") rfl
  exact ⟨⟨rfl, rfl, rfl, rfl⟩, h.1⟩

/-! ## C5 — resolve never fails; extra separators create a raw-keyed node -/

/-- C5 counterexample: on the input `"a:b:c"` (two separators),
`NewContainerLayer` raises no error — it cannot fail — and DOES create a
registry node, keyed by the raw unstripped string, contradicting the
claim that resolution fails with a malformed-identifier error and creates
no node. -/
theorem multi_separator_creates_node_counterexample :
    (NewContainerLayer "a:b:c" none emptySt).1 = "a:b:c"
    ∧ (NewContainerLayer "a:b:c" none emptySt).2.ExistingLayers "a:b:c"
        = some { Hash := "a:b:c", SharedCount := 1 } :=
  ⟨rfl, rfl⟩

/-- C5 amended: `NewContainerLayer` strips the algorithm prefix exactly
when the split around `":"` has two pieces; for any other input (no
separator, or more than one) it performs no normalization and raises no
error — the resolve returns a node registered under the raw input
string. -/
theorem resolve_strip_or_raw_key
    (str : String) (s : St) :
    ((splitOnColon str).length = 2 →
        (NewContainerLayer str none s).1 = (splitOnColon str).getD 1 str)
    ∧ ((splitOnColon str).length ≠ 2 →
        (NewContainerLayer str none s).1 = str
        ∧ ((NewContainerLayer str none s).2.ExistingLayers str).isSome = true) := by
  constructor
  · intro h2
    unfold NewContainerLayer normalizeHash
    simp only [h2, if_pos]
    rcases hl : s.ExistingLayers ((splitOnColon str).getD 1 str) with _ | v <;> simp [hl]
  · intro hne
    unfold NewContainerLayer normalizeHash
    simp only [hne, if_neg, if_false]
    rcases hl : s.ExistingLayers str with _ | v <;> simp [hl, St.insertLayer]

/-- Witness for C5's amended claim: one-separator input `"sha256:abc"` is
stripped; two-separator input `"a:b:c"` yields a node under the raw key. -/
theorem resolve_strip_or_raw_key_witness :
    ((splitOnColon "sha256:abc").length = 2
     ∧ (NewContainerLayer "sha256:abc" none emptySt).1
         = (splitOnColon "sha256:abc").getD 1 "sha256:abc")
    ∧ ((splitOnColon "a:b:c").length ≠ 2
       ∧ (NewContainerLayer "a:b:c" none emptySt).1 = "a:b:c"
       ∧ ((NewContainerLayer "a:b:c" none emptySt).2.ExistingLayers "a:b:c").isSome
           = true) := by
  have h1 := (resolve_strip_or_raw_key "sha256:abc" emptySt).1 (by decide)
  have h2 := (resolve_strip_or_raw_key "a:b:c" emptySt).2 (by decide)
  exact ⟨⟨by decide, h1⟩, by decide, h2.1, h2.2⟩

/-! ## C9 — failing containers are logged and skipped, the rest produced -/

/-- `GetContainerDetails` writes only `ContainerDetails`, so `Hash` is
preserved on success. -/
theorem Container.GetContainerDetails_hash_eq (ctx : Ctx) (c c' : Container)
    (h : c.GetContainerDetails ctx = .ok c') : c'.Hash = c.Hash := by
  unfold Container.GetContainerDetails at h
  cases hins : ctx.w.inspect c.Hash with
  | none => rw [hins] at h; cases h
  | some decoded =>
    rw [hins] at h
    cases decoded with
    | nil => cases h
    | cons d ds => cases h; rfl

/-- `GetCOWSize` writes only `COWSize` and `COWLocation`, so `Hash` is
preserved on success. -/
theorem Container.GetCOWSize_hash_eq (ctx : Ctx) (c c' : Container)
    (h : c.GetCOWSize ctx = .ok c') : c'.Hash = c.Hash := by
  unfold Container.GetCOWSize at h
  cases hf : ctx.w.fs (ctx.P.GetContainerMountFilePath ctx.fsPath c.Hash) with
  | none => simp only [hf] at h; cases h
  | some contents =>
    simp only [hf] at h
    cases hsz : ctx.w.folderSize (ctx.P.GetMntPath ctx.fsPath contents) with
    | none => simp only [hsz] at h; cases h
    | some size => simp only [hsz] at h; cases h; rfl

/-- `GetParentLayer` writes only `ParentChain`, so `Hash` is preserved on
success. -/
theorem Container.GetParentLayer_hash_eq (ctx : Ctx) (fuel : Nat)
    (c c' : Container) (s s' : St)
    (h : c.GetParentLayer ctx fuel s = (.ok c', s')) : c'.Hash = c.Hash := by
  unfold Container.GetParentLayer at h
  cases hf : ctx.w.fs (ctx.P.GetParentFileLocation ctx.fsPath c.Hash) with
  | none =>
    simp only [hf, Prod.mk.injEq] at h
    cases h.1
  | some contents =>
    simp only [hf] at h
    rcases hNC : NewContainerLayer contents
        (some (match c.ContainerDetails with | some d => d.Name | none => "")) s
      with ⟨k, s1⟩
    rw [hNC] at h
    rcases hI : ContainerLayer.Init ctx fuel k s1 with ⟨r, s2⟩
    rw [hI] at h
    cases r with
    | error e => cases h
    | ok u => cases u; cases h; rfl

/-- A successful `Container.Init` never changes the container's `Hash`
(the three build steps only write `ContainerDetails`, `COWSize`,
`COWLocation` and `ParentChain`). -/
theorem Container.Init_hash_eq (ctx : Ctx) (fuel : Nat) (c c' : Container)
    (s s' : St) (hI : Container.Init ctx fuel c s = (.ok c', s')) :
    c'.Hash = c.Hash := by
  unfold Container.Init at hI
  cases hd : c.GetContainerDetails ctx with
  | error e =>
    simp only [hd, Prod.mk.injEq] at hI
    cases hI.1
  | ok c1 =>
    simp only [hd] at hI
    cases hw : c1.GetCOWSize ctx with
    | error e =>
      simp only [hw, Prod.mk.injEq] at hI
      cases hI.1
    | ok c2 =>
      simp only [hw] at hI
      calc c'.Hash
          = c2.Hash := Container.GetParentLayer_hash_eq ctx fuel c2 c' s s' hI
        _ = c1.Hash := Container.GetCOWSize_hash_eq ctx c1 c2 hw
        _ = c.Hash := Container.GetContainerDetails_hash_eq ctx c c1 hd

/-- C9: enumerating a container directory, every entry is processed in
order (first conjunct); the records returned by `GetAllContainers` are
exactly the entries whose build succeeded, in order (second conjunct); and
each failing entry yields exactly its skip log line, in order (third
conjunct) — so one failing container is logged and excluded while every
other container's record is still produced. -/
theorem failed_container_logged_skipped_rest_produced
    (ctx : Ctx) (fuel : Nat) (files : List String) (s : St) :
    ((initOutcomes ctx fuel files s).1.map (fun fb => fb.1) = files)
    ∧ ((GetAllContainers ctx fuel files s).1.1.map Container.Hash
        = ((initOutcomes ctx fuel files s).1.filter (fun fb => fb.2)).map
            (fun fb => fb.1))
    ∧ ((GetAllContainers ctx fuel files s).1.2
        = ((initOutcomes ctx fuel files s).1.filter (fun fb => !fb.2)).map
            (fun fb => skipLogLine fb.1)) := by
  induction files generalizing s with
  | nil => simp [GetAllContainers, initOutcomes]
  | cons f rest ih =>
    unfold GetAllContainers initOutcomes
    rcases hI : Container.Init ctx fuel (mkContainer f) s with ⟨r, s'⟩
    rcases hrec : GetAllContainers ctx fuel rest s' with ⟨⟨cs, logs⟩, s2⟩
    rcases hout : initOutcomes ctx fuel rest s' with ⟨out, s3⟩
    have h3 := ih s'
    rw [hrec, hout] at h3
    cases r with
    | error e =>
      simp only [hrec, hout]
      refine ⟨?_, ?_, ?_⟩
      · simpa using h3.1
      · simpa using h3.2.1
      · simpa using h3.2.2
    | ok c =>
      have hh : c.Hash = f :=
        Container.Init_hash_eq ctx fuel (mkContainer f) c s s' hI
      simp only [hrec, hout]
      refine ⟨?_, ?_, ?_⟩
      · simpa using h3.1
      · simpa [hh] using h3.2.1
      · simpa using h3.2.2

/-! ## C10 — the two normalization routines do NOT agree in general -/

/-- C10 counterexample: on `"md5:abc"` the registry normalization strips
the (non-sha256) algorithm prefix, while `getHashFromSha256` leaves the
string untouched — the two routines disagree. -/
theorem normalization_routines_disagree_counterexample :
    normalizeHash "md5:abc" ≠ getHashFromSha256 "md5:abc" := by decide

theorem splitColonAux_no_colon (l : List Char) (h : ':' ∉ l) :
    splitColonAux l = [l] := by
  induction l with
  | nil => rfl
  | cons c rest ih =>
    have hc : ¬ c = ':' := fun e => h (e ▸ List.mem_cons_self c rest)
    simp [splitColonAux, hc, ih (fun m => h (List.mem_cons_of_mem _ m))]

theorem splitColonAux_append_colon (a l : List Char) (ha : ':' ∉ a) :
    splitColonAux (a ++ ':' :: l) = a :: splitColonAux l := by
  induction a with
  | nil => simp [splitColonAux]
  | cons c a2 ih =>
    have hc : ¬ c = ':' := fun e => ha (e ▸ List.mem_cons_self c a2)
    have ha2 : ':' ∉ a2 := fun m => ha (List.mem_cons_of_mem _ m)
    simp [splitColonAux, hc, ih ha2]

/-- A list is a Boolean prefix of itself followed by anything. -/
theorem isPrefixOf_self_append (a l : List Char) : a.isPrefixOf (a ++ l) = true := by
  induction a with
  | nil => simp [List.isPrefixOf]
  | cons c a2 ih => simp [List.isPrefixOf, ih]

/-- A colon occurring in a Boolean prefix of `l` occurs in `l`. -/
theorem colon_mem_of_isPrefixOf (pat l : List Char) (hp : pat.isPrefixOf l = true)
    (hc : ':' ∈ pat) : ':' ∈ l := by
  induction pat generalizing l with
  | nil => cases hc
  | cons c ps ih =>
    cases l with
    | nil => cases hp
    | cons d ds =>
      simp only [List.isPrefixOf, Bool.and_eq_true, beq_iff_eq] at hp
      rcases List.mem_cons.mp hc with hc1 | hc2
      · subst hc1
        rw [← hp.1]
        exact List.mem_cons_self _ _
      · exact List.mem_cons_of_mem _ (ih ds hp.2 hc2)

/-- Dropping one leading occurrence of the pattern: the replace-all loop
consumes a leading `"sha256:"` in one step. -/
theorem removeSha256Aux_leading_match (l : List Char) :
    removeSha256Aux ("sha256:".data ++ l) = removeSha256Aux l := by
  have hd : "sha256:".data ++ l
      = 's' :: 'h' :: 'a' :: '2' :: '5' :: '6' :: ':' :: l := rfl
  have hp : ("sha256:".data).isPrefixOf
      ('s' :: 'h' :: 'a' :: '2' :: '5' :: '6' :: ':' :: l) = true :=
    isPrefixOf_self_append ("sha256:".data) l
  have hdrop : ('s' :: 'h' :: 'a' :: '2' :: '5' :: '6' :: ':' :: l).drop
      ("sha256:".data).length = l := rfl
  rw [hd]
  simp only [removeSha256Aux, hp, if_true, hdrop]

theorem removeSha256Aux_no_colon (l : List Char) (h : ':' ∉ l) :
    removeSha256Aux l = l := by
  induction l with
  | nil => simp [removeSha256Aux]
  | cons c rest ih =>
    have hpre : ("sha256:".data).isPrefixOf (c :: rest) = false := by
      by_contra hb
      rw [Bool.not_eq_false] at hb
      exact h (colon_mem_of_isPrefixOf _ _ hb (by decide))
    have hr : ':' ∉ rest := fun m => h (List.mem_cons_of_mem _ m)
    simp [removeSha256Aux, hpre, ih hr]

/-- C10 amended: the two identifier-normalization routines agree on
colon-free inputs (both leave them unchanged) and on inputs of the exact
shape `"sha256:" ++ t` with `t` colon-free (both return the bare digest
`t`); in general they disagree (see the counterexample `"md5:abc"`). -/
theorem normalization_routines_agree_on_sha256_shape
    (t : String) (h : ':' ∉ t.data) :
    normalizeHash t = getHashFromSha256 t
    ∧ normalizeHash ("sha256:" ++ t) = getHashFromSha256 ("sha256:" ++ t)
    ∧ normalizeHash ("sha256:" ++ t) = t := by
  have hmk : String.mk t.data = t := by cases t; rfl
  have hpre1 : ("sha256:".data).isPrefixOf t.data = false := by
    by_contra hb
    rw [Bool.not_eq_false] at hb
    exact h (colon_mem_of_isPrefixOf _ _ hb (by decide))
  have hsplit1 : splitOnColon t = [t] := by
    unfold splitOnColon
    rw [splitColonAux_no_colon t.data h]
    simp [hmk]
  have hdata : ("sha256:" ++ t).data = ['s', 'h', 'a', '2', '5', '6'] ++ ':' :: t.data := rfl
  have hsplit2 : splitOnColon ("sha256:" ++ t) = ["sha256", t] := by
    unfold splitOnColon
    rw [hdata, splitColonAux_append_colon _ _ (by decide),
        splitColonAux_no_colon t.data h]
    simp [hmk]
  have hpre2 : ("sha256:".data).isPrefixOf (("sha256:" ++ t).data) = true := by
    rw [hdata]
    exact isPrefixOf_self_append ("sha256:".data) t.data
  have hrm : removeSha256Aux (("sha256:" ++ t).data) = t.data := by
    have hsp : ("sha256:" ++ t).data = "sha256:".data ++ t.data := rfl
    rw [hsp, removeSha256Aux_leading_match, removeSha256Aux_no_colon t.data h]
  refine ⟨?_, ?_, ?_⟩
  · unfold normalizeHash getHashFromSha256
    rw [hsplit1, hpre1]
    simp
  · unfold normalizeHash getHashFromSha256
    rw [hsplit2, hpre2, hrm]
    simp [hmk]
  · unfold normalizeHash
    rw [hsplit2]
    simp

/-- Witness for C10's amended claim at the colon-free digest `"abc"`. -/
theorem normalization_routines_agree_on_sha256_shape_witness :
    (':' ∉ "abc".data)
    ∧ (normalizeHash "abc" = getHashFromSha256 "abc"
       ∧ normalizeHash ("sha256:" ++ "abc") = getHashFromSha256 ("sha256:" ++ "abc")
       ∧ normalizeHash ("sha256:" ++ "abc") = "abc") :=
  ⟨by decide, normalization_routines_agree_on_sha256_shape "abc" (by decide)⟩
